import Mathlib

/-!
Verification development for `update_textures.py`: a texture-matching
cascade (`find_matching_texture`), its normalization helper
(`normalize_name`), and the catalog-update pass (`update_blocks_json` /
`main`).  Python string primitives (`lower`, `replace`, `split`, `join`,
`in`, `len`) are embedded as structural-recursive functions over `List Char`
so that every definition evaluates by kernel reduction.
-/

/-- Python `pat.isPrefix`-style check: `starts_with pat s` is true iff
`pat` is a leading segment of `s` (models the leading-segment test used by
substring search and by `str.replace`). -/
def starts_with : List Char → List Char → Bool
  | [], _ => true
  | _ :: _, [] => false
  | a :: as, b :: bs => a == b && starts_with as bs

/-- Python `needle in hay` on strings: some occurrence of `needle` as a
contiguous run of `hay`. -/
def has_sub (needle : List Char) : List Char → Bool
  | [] => needle.isEmpty
  | c :: rest => starts_with needle (c :: rest) || has_sub needle rest

/-- Python `s.replace(pat, rep)` for a non-empty `pat`: replace
non-overlapping occurrences left to right.  `fuel` bounds the recursion;
each step consumes at least one character, so `fuel = s.length` is always
enough (the `0` branch is unreachable at the call site below). -/
def replace_fuel (pat rep : List Char) : Nat → List Char → List Char
  | _, [] => []
  | 0, s => s
  | f + 1, c :: rest =>
    if !pat.isEmpty && starts_with pat (c :: rest) then
      rep ++ replace_fuel pat rep f (List.drop (pat.length - 1) rest)
    else
      c :: replace_fuel pat rep f rest

/-- Python `s.split('_')`: split on every underscore, keeping empty pieces,
and producing `[""]` on the empty string. -/
def split_u : List Char → List (List Char)
  | [] => [[]]
  | c :: rest =>
    let ps := split_u rest
    if c == '_' then [] :: ps
    else
      match ps with
      | [] => [[c]]
      | p :: ps2 => (c :: p) :: ps2

/-- Python `'_'.join(l)`. -/
def join_u : List (List Char) → List Char
  | [] => []
  | [p] => p
  | p :: q :: rest => p ++ '_' :: join_u (q :: rest)

/-- Python `s.lower()` (ASCII case fold, which covers the catalog's names). -/
def pylower (s : String) : String := ⟨s.data.map Char.toLower⟩

/-- Python `s.replace(pat, rep)` lifted to `String`. -/
def pyreplace (s pat rep : String) : String :=
  ⟨replace_fuel pat.data rep.data s.data.length s.data⟩

/-- Python `needle in hay` lifted to `String`. -/
def pycontains (hay needle : String) : Bool := has_sub needle.data hay.data

/-- Python `s.split('_')` lifted to `String`. -/
def pysplit_u (s : String) : List String := (split_u s.data).map (fun l => ⟨l⟩)

/-- Python `'_'.join(l)` lifted to `String`. -/
def pyjoin_u (l : List String) : String := ⟨join_u (l.map String.data)⟩

/-- Python `len(s)`. -/
def pylen (s : String) : Nat := s.data.length

/-- `normalize_name` (update_textures.py, lines 17-19): lower-case and strip
`_`, `-` and space. -/
def normalize_name (name : String) : String :=
  pyreplace (pyreplace (pyreplace (pylower name) "_" "") "-" "") " " ""

/-- The matcher's "not found" sentinel (line 98). -/
def MISSING : String := "missing_texture.png"

/-- Tier-2 list of prefixed variations, in source order (lines 34-44). -/
def variations (block_name : String) : List String :=
  [ "stone_" ++ block_name ++ ".png"
  , "planks_" ++ block_name ++ ".png"
  , "log_" ++ block_name ++ ".png"
  , "leaves_" ++ block_name ++ ".png"
  , "wool_colored_" ++ block_name ++ ".png"
  , "glass_" ++ block_name ++ ".png"
  , "concrete_" ++ block_name ++ ".png"
  , "hardened_clay_stained_" ++ block_name ++ ".png"
  , "glazed_terracotta_" ++ block_name ++ ".png" ]

/-- First element of `cands` present in `available_textures` (the
`for v in l: if v in available_textures: return v` pattern). -/
def first_hit (cands : List String) (available_textures : List String) : Option String :=
  cands.find? (fun v => decide (v ∈ available_textures))

/-- Tier-3 list for the "polished" special case, in source order
(lines 53-57). -/
def smooth_variations (base_name : String) : List String :=
  [ "stone_" ++ base_name ++ "_smooth.png"
  , base_name ++ "_smooth.png"
  , "polished_" ++ base_name ++ ".png" ]

/-- Tier 3 (lines 50-60): when the (lowered) name contains `"polished"`,
strip `"polished_"` and try the three smooth variations. -/
def polished_tier (block_name : String) (available_textures : List String) : Option String :=
  if pycontains block_name "polished" then
    first_hit (smooth_variations (pyreplace block_name "polished_" "")) available_textures
  else none

/-- Tier-4 candidate list (lines 66-73): for `i` ascending and
`j ∈ [i+1, n]` ascending, join `parts[i:j]` with `_` and try the bare,
stone- and planks- prefixed forms. -/
def tier4_candidates (parts : List String) : List String :=
  (List.range parts.length).flatMap (fun i =>
    (List.range (parts.length + 1)).flatMap (fun j =>
      if i + 1 ≤ j then
        let combo := pyjoin_u ((parts.drop i).take (j - i))
        [combo ++ ".png", "stone_" ++ combo ++ ".png", "planks_" ++ combo ++ ".png"]
      else []))

/-- Tier 4 (lines 62-76): only attempted when the name splits into more
than one part. -/
def part_split_tier (block_name : String) (available_textures : List String) : Option String :=
  let parts := pysplit_u block_name
  if parts.length > 1 then first_hit (tier4_candidates parts) available_textures
  else none

/-- Tier-5 parts (line 87): `normalized_block.split('_')` when the name has
an underscore, else the singleton of the normalized name.  Note the split is
applied to the normalized name, whose underscores were already stripped. -/
def fuzzy_parts (block_name : String) : List String :=
  let normalized_block := normalize_name block_name
  if pycontains block_name "_" then pysplit_u normalized_block else [normalized_block]

/-- Tier-5 qualification test for one candidate (lines 82-91): some part of
length > 2 occurs in the normalized, extension-stripped candidate. -/
def fuzzy_qualifies (block_parts : List String) (texture : String) : Bool :=
  let normalized_texture := normalize_name (pyreplace texture ".png" "")
  block_parts.any (fun part => decide (pylen part > 2) && pycontains normalized_texture part)

/-- Python `min(l, key=len)`: the first element of minimal length (`none`
on the empty list, where Python would raise). -/
def min_by_len (l : List String) : Option String :=
  match l with
  | [] => none
  | x :: xs => some (xs.foldl (fun best t => if pylen t < pylen best then t else best) x)

/-- Tier 5 (lines 78-95): collect qualifying candidates in iteration order
and return the shortest. -/
def fuzzy_tier (block_name : String) (available_textures : List String) : Option String :=
  min_by_len (available_textures.filter (fuzzy_qualifies (fuzzy_parts block_name)))

/-- `find_matching_texture` (lines 21-98): the full cascade.  The candidate
set is carried as the list of filenames in iteration order. -/
def find_matching_texture (block_name : String) (available_textures : List String) : String :=
  let bn := pylower block_name
  let exact_match := bn ++ ".png"
  if exact_match ∈ available_textures then exact_match
  else
    match first_hit (variations bn) available_textures with
    | some v => v
    | none =>
      match polished_tier bn available_textures with
      | some v => v
      | none =>
        match part_split_tier bn available_textures with
        | some v => v
        | none =>
          match fuzzy_tier bn available_textures with
          | some v => v
          | none => MISSING

/-- The catalog's sentinel missing-reference URL (line 127). -/
def SENTINEL_URL : String := "blocks/missing_texture.png"

/-- A block record: a `name`, a `url`, and the remaining fields, which the
updater treats as opaque. -/
structure Block where
  name : String
  url : String
  extra : List (String × String)
deriving DecidableEq

/-- The four counters accumulated by `update_blocks_json` (lines 116-121). -/
structure Stats where
  total_processed : Nat
  missing_found : Nat
  updated : Nat
  still_missing : Nat
deriving DecidableEq

/-- One iteration of the update loop (lines 124-141), record part: a record
whose `url` is the sentinel and whose name matches gets
`"blocks/" ++ texture`; every other record is untouched. -/
def update_block (available_textures : List String) (b : Block) : Block :=
  if b.url = SENTINEL_URL then
    let m := find_matching_texture b.name available_textures
    if m ≠ MISSING then { b with url := "blocks/" ++ m } else b
  else b

/-- The in-memory pass of `update_blocks_json` over the record list
(lines 124-141), returning the updated list in the original order. -/
def update_blocks (available_textures : List String) (blocks : List Block) : List Block :=
  blocks.map (update_block available_textures)

/-- One iteration of the update loop (lines 124-141), counter part. -/
def step_stats (available_textures : List String) (st : Stats) (b : Block) : Stats :=
  let st1 : Stats := { st with total_processed := st.total_processed + 1 }
  if b.url = SENTINEL_URL then
    let st2 : Stats := { st1 with missing_found := st1.missing_found + 1 }
    if find_matching_texture b.name available_textures ≠ MISSING then
      { st2 with updated := st2.updated + 1 }
    else
      { st2 with still_missing := st2.still_missing + 1 }
  else st1

/-- The counters produced by one full pass of `update_blocks_json`
(lines 116-141). -/
def run_stats (available_textures : List String) (blocks : List Block) : Stats :=
  blocks.foldl (step_stats available_textures) ⟨0, 0, 0, 0⟩

/-- The success-rate report of `main` (lines 170-172): printed only when
`updated > 0`, with value `updated / missing_found * 100` (modelled in ℚ). -/
def success_rate_report (st : Stats) : Option ℚ :=
  if st.updated > 0 then
    some ((st.updated : ℚ) / (st.missing_found : ℚ) * 100)
  else none

/-- The ways loading an input file can fail (`main`, lines 174-179). -/
inductive LoadError where
  | fileNotFound
  | malformedJson
  | other
deriving DecidableEq

/-- The control flow of `main` + `update_blocks_json` (lines 106-146,
160-179) with file I/O abstracted: each load either yields its parsed value
or raises.  The result is `some finalBlocks` when the output file is
written (which in the source happens only after the full in-memory pass,
line 145), and `none` when an exception reaches `main`'s handlers and the
output file is never opened. -/
def run_process (tex : Except LoadError (List String))
    (blocks : Except LoadError (List Block)) : Option (List Block) :=
  match tex with
  | .error _ => none
  | .ok available_textures =>
    match blocks with
    | .error _ => none
    | .ok bs => some (update_blocks available_textures bs)

/-! Helper lemmas. -/

theorem first_hit_mem {cands available_textures : List String} {v : String}
    (h : first_hit cands available_textures = some v) : v ∈ available_textures := by
  unfold first_hit at h
  have := List.find?_some h
  exact of_decide_eq_true this

theorem foldl_min_mem (xs : List String) (x : String) :
    xs.foldl (fun best t => if pylen t < pylen best then t else best) x ∈ x :: xs := by
  induction xs generalizing x with
  | nil => simp [List.foldl]
  | cons a as ih =>
    simp only [List.foldl]
    have h := ih (if pylen a < pylen x then a else x)
    rcases List.mem_cons.mp h with h1 | h2
    · rw [h1]
      by_cases hc : pylen a < pylen x
      · simp [hc]
      · simp [hc]
    · simp [h2]

theorem min_by_len_mem {l : List String} {v : String}
    (h : min_by_len l = some v) : v ∈ l := by
  cases l with
  | nil => simp [min_by_len] at h
  | cons x xs =>
    simp only [min_by_len, Option.some.injEq] at h
    exact h ▸ foldl_min_mem xs x

theorem polished_tier_mem {bn : String} {available_textures : List String} {v : String}
    (h : polished_tier bn available_textures = some v) : v ∈ available_textures := by
  unfold polished_tier at h
  split at h
  · exact first_hit_mem h
  · exact absurd h (by simp)

theorem part_split_tier_mem {bn : String} {available_textures : List String} {v : String}
    (h : part_split_tier bn available_textures = some v) : v ∈ available_textures := by
  simp only [part_split_tier] at h
  split at h
  · exact first_hit_mem h
  · exact absurd h (by simp)

theorem fuzzy_tier_mem {bn : String} {available_textures : List String} {v : String}
    (h : fuzzy_tier bn available_textures = some v) : v ∈ available_textures := by
  unfold fuzzy_tier at h
  exact List.mem_of_mem_filter (min_by_len_mem h)

/-- C1: for every block name and candidate list, `find_matching_texture`
returns either an element of the candidate list or the literal sentinel
`"missing_texture.png"`; it never fabricates any other string. -/
theorem c1_result_in_candidates_or_sentinel (block_name : String)
    (available_textures : List String) :
    find_matching_texture block_name available_textures ∈ available_textures ∨
    find_matching_texture block_name available_textures = "missing_texture.png" := by
  simp only [find_matching_texture]
  split
  · next h => exact Or.inl h
  · split
    · next v h => exact Or.inl (first_hit_mem h)
    · split
      · next v h => exact Or.inl (polished_tier_mem h)
      · split
        · next v h => exact Or.inl (part_split_tier_mem h)
        · split
          · next v h => exact Or.inl (fuzzy_tier_mem h)
          · exact Or.inr rfl

/-- C3: whenever the lower-cased block name with `".png"` appended is
present in the candidate list, the matcher returns exactly that candidate
(tier 1 dominates every later tier). -/
theorem c3_exact_tier_dominates (block_name : String) (available_textures : List String)
    (h : pylower block_name ++ ".png" ∈ available_textures) :
    find_matching_texture block_name available_textures = pylower block_name ++ ".png" := by
  unfold find_matching_texture
  simp [h]

theorem c3_exact_tier_dominates_witness :
    pylower "Stone" ++ ".png" ∈ ["stone.png", "stone_slab.png"] ∧
    find_matching_texture "Stone" ["stone.png", "stone_slab.png"]
      = pylower "Stone" ++ ".png" :=
  ⟨by decide, c3_exact_tier_dominates "Stone" ["stone.png", "stone_slab.png"] (by decide)⟩

/-- C6: with candidates `{"oak_log_top.png"}` and block name `"oak_log"`,
the sub-phrase tier finds nothing (it requires exact equality of a joined
sub-range with a candidate), and the cascade falls through to the fuzzy
tier, which returns `"oak_log_top.png"`. -/
theorem c6_oak_log_falls_to_fuzzy :
    part_split_tier (pylower "oak_log") ["oak_log_top.png"] = none ∧
    fuzzy_tier (pylower "oak_log") ["oak_log_top.png"] = some "oak_log_top.png" ∧
    find_matching_texture "oak_log" ["oak_log_top.png"] = "oak_log_top.png" := by
  decide

/-- C2: the fuzzy tier splits the *normalized* block name on `_`, but
normalization has already removed every underscore, so the parts list is
always the singleton holding the whole normalized name; the parts of the
original name never participate independently.  Concretely, for block name
`"oak_log"` the only part is `"oaklog"`, so candidate `"oak_planks.png"`
(whose normal form contains the part `"oak"` of the original name) is not
matched and the matcher returns the sentinel. -/
theorem c2_fuzzy_split_is_degenerate :
    fuzzy_parts (pylower "oak_log") = ["oaklog"] ∧
    find_matching_texture "oak_log" ["oak_planks.png"] = "missing_texture.png" := by
  decide

/-- C5: for a block name containing `"polished"` that misses tiers 1 and 2,
the matcher strips `"polished_"` to get a base name and returns the first
of `stone_<base>_smooth.png`, `<base>_smooth.png`, `polished_<base>.png`
present in the candidate list. -/
theorem c5_polished_tier_order (block_name : String) (available_textures : List String)
    (v : String)
    (h1 : pylower block_name ++ ".png" ∉ available_textures)
    (h2 : first_hit (variations (pylower block_name)) available_textures = none)
    (h3 : pycontains (pylower block_name) "polished" = true)
    (h4 : List.find? (fun c => decide (c ∈ available_textures))
        [ "stone_" ++ pyreplace (pylower block_name) "polished_" "" ++ "_smooth.png"
        , pyreplace (pylower block_name) "polished_" "" ++ "_smooth.png"
        , "polished_" ++ pyreplace (pylower block_name) "polished_" "" ++ ".png" ]
      = some v) :
    find_matching_texture block_name available_textures = v := by
  have hp : polished_tier (pylower block_name) available_textures = some v := by
    unfold polished_tier
    rw [h3]
    simp only [if_true]
    exact h4
  simp only [find_matching_texture]
  rw [if_neg h1, h2, hp]

theorem c5_polished_tier_order_witness :
    find_matching_texture "polished_andesite" ["andesite_smooth.png"]
      = "andesite_smooth.png" :=
  c5_polished_tier_order "polished_andesite" ["andesite_smooth.png"] "andesite_smooth.png"
    (by decide) (by decide) (by decide) (by decide)

theorem append_left_cancel_str {a s t : String} (h : a ++ s = a ++ t) : s = t := by
  apply String.ext
  have h2 : a.data ++ s.data = a.data ++ t.data := congrArg String.data h
  exact List.append_cancel_left h2

theorem updated_url_ne_sentinel {m : String} (hm : m ≠ MISSING) :
    "blocks/" ++ m ≠ SENTINEL_URL := by
  intro h
  apply hm
  have h2 : "blocks/" ++ m = "blocks/" ++ MISSING := by
    rw [h]; decide
  exact append_left_cancel_str h2

theorem update_block_idem (available_textures : List String) (b : Block) :
    update_block available_textures (update_block available_textures b)
      = update_block available_textures b := by
  by_cases h : b.url = SENTINEL_URL
  · by_cases hm : find_matching_texture b.name available_textures = MISSING
    · have e1 : update_block available_textures b = b := by
        simp [update_block, h, hm]
      rw [e1]
      exact e1
    · have e1 : update_block available_textures b
          = { b with url := "blocks/" ++ find_matching_texture b.name available_textures } := by
        simp [update_block, h, hm]
      rw [e1]
      have hb2 : ({ b with
          url := "blocks/" ++ find_matching_texture b.name available_textures } : Block).url
          ≠ SENTINEL_URL := updated_url_ne_sentinel hm
      simp [update_block, hb2]
  · have e1 : update_block available_textures b = b := by
      simp [update_block, h]
    rw [e1]
    exact e1

/-- C7: one in-memory pass of the updater is idempotent — records resolved
in the first pass no longer carry the sentinel URL and are ineligible, and
still-unmatched records produce the sentinel again and stay unchanged, so a
second pass returns the same record list. -/
theorem c7_updater_idempotent (available_textures : List String) (blocks : List Block) :
    update_blocks available_textures (update_blocks available_textures blocks)
      = update_blocks available_textures blocks := by
  unfold update_blocks
  rw [List.map_map]
  refine List.map_congr_left (fun b _ => ?_)
  simp only [Function.comp_apply]
  exact update_block_idem available_textures b

/-- C9: the updater rewrites only the `url` field, and only of records
whose `url` is the sentinel and whose name the matcher resolves (to the
directory-prefixed filename); every other record is returned unchanged,
the remaining fields of updated records are untouched, and the sequence of
records is preserved position by position. -/
theorem c9_update_frame (available_textures : List String) (blocks : List Block) :
    (∀ i : Nat, (update_blocks available_textures blocks).get? i
        = (blocks.get? i).map (update_block available_textures)) ∧
    (∀ b : Block, (update_block available_textures b).name = b.name ∧
        (update_block available_textures b).extra = b.extra) ∧
    (∀ b : Block, b.url ≠ SENTINEL_URL → update_block available_textures b = b) ∧
    (∀ b : Block, b.url = SENTINEL_URL →
        find_matching_texture b.name available_textures = MISSING →
        update_block available_textures b = b) ∧
    (∀ b : Block, b.url = SENTINEL_URL →
        find_matching_texture b.name available_textures ≠ MISSING →
        update_block available_textures b
          = { b with url := "blocks/" ++ find_matching_texture b.name available_textures }) := by
  refine ⟨fun i => ?_, fun b => ?_, fun b h => ?_, fun b h hm => ?_, fun b h hm => ?_⟩
  · simp [update_blocks]
  · by_cases h : b.url = SENTINEL_URL
    · by_cases hm : find_matching_texture b.name available_textures = MISSING
      · simp [update_block, h, hm]
      · simp [update_block, h, hm]
    · simp [update_block, h]
  · simp [update_block, h]
  · simp [update_block, h, hm]
  · simp [update_block, h, hm]

theorem c9_update_frame_witness :
    (update_blocks ["stone.png"] [⟨"stone", "blocks/missing_texture.png", []⟩]).get? 0
      = ([(⟨"stone", "blocks/missing_texture.png", []⟩ : Block)].get? 0).map
          (update_block ["stone.png"]) ∧
    update_block ["stone.png"] ⟨"dirt", "blocks/dirt.png", []⟩
      = ⟨"dirt", "blocks/dirt.png", []⟩ :=
  ⟨(c9_update_frame ["stone.png"] [⟨"stone", "blocks/missing_texture.png", []⟩]).1 0,
   (c9_update_frame ["stone.png"] [⟨"stone", "blocks/missing_texture.png", []⟩]).2.2.1
     ⟨"dirt", "blocks/dirt.png", []⟩ (by decide)⟩

theorem step_stats_fields (available_textures : List String) (st : Stats) (b : Block) :
    (step_stats available_textures st b).total_processed = st.total_processed + 1 ∧
    (step_stats available_textures st b).missing_found
      = st.missing_found + (if b.url = SENTINEL_URL then 1 else 0) ∧
    (step_stats available_textures st b).updated
        + (step_stats available_textures st b).still_missing
      = st.updated + st.still_missing + (if b.url = SENTINEL_URL then 1 else 0) := by
  by_cases hu : b.url = SENTINEL_URL
  · by_cases hm : find_matching_texture b.name available_textures = MISSING
    · simp [step_stats, hu, hm]
      omega
    · simp [step_stats, hu, hm]
      omega
  · simp [step_stats, hu]

theorem run_stats_fold (available_textures : List String) :
    ∀ (bs : List Block) (st : Stats),
      (bs.foldl (step_stats available_textures) st).total_processed
          = st.total_processed + bs.length ∧
      (bs.foldl (step_stats available_textures) st).missing_found
          = st.missing_found + bs.countP (fun b => b.url == SENTINEL_URL) ∧
      (bs.foldl (step_stats available_textures) st).updated
          + (bs.foldl (step_stats available_textures) st).still_missing
          + st.missing_found
        = (bs.foldl (step_stats available_textures) st).missing_found
          + st.updated + st.still_missing := by
  intro bs
  induction bs with
  | nil => intro st; simp; omega
  | cons b rest ih =>
    intro st
    obtain ⟨s1, s2, s3⟩ := step_stats_fields available_textures st b
    obtain ⟨h1, h2, h3⟩ := ih (step_stats available_textures st b)
    refine ⟨?_, ?_, ?_⟩
    · rw [List.foldl_cons, h1, s1, List.length_cons]
      omega
    · rw [List.foldl_cons, h2, s2, List.countP_cons]
      by_cases hu : b.url = SENTINEL_URL
      · simp [hu]; omega
      · simp [hu]
    · rw [List.foldl_cons]
      omega

/-- C10: after a full pass, `total_processed` equals the number of records,
`missing_found` equals the number of records whose url is the sentinel, and
`missing_found` splits exactly into `updated` plus `still_missing`. -/
theorem c10_counter_invariants (available_textures : List String) (blocks : List Block) :
    (run_stats available_textures blocks).total_processed = blocks.length ∧
    (run_stats available_textures blocks).missing_found
      = blocks.countP (fun b => b.url == SENTINEL_URL) ∧
    (run_stats available_textures blocks).missing_found
      = (run_stats available_textures blocks).updated
        + (run_stats available_textures blocks).still_missing := by
  obtain ⟨h1, h2, h3⟩ := run_stats_fold available_textures blocks ⟨0, 0, 0, 0⟩
  unfold run_stats
  refine ⟨?_, ?_, ?_⟩
  · simpa using h1
  · simpa using h2
  · simp at h3
    omega

/-- C4 (counterexample): one record with the sentinel URL and no matching
candidate gives an eligible count of 1, yet the report is omitted — the
source gates the success-rate print on `updated > 0`, not on the eligible
count. -/
theorem c4_gate_counterexample :
    (run_stats [] [⟨"zzqq", "blocks/missing_texture.png", []⟩]).missing_found ≠ 0 ∧
    success_rate_report (run_stats [] [⟨"zzqq", "blocks/missing_texture.png", []⟩]) = none := by
  decide

/-- C4 (amended): the success rate equals `updated / missing_found × 100`
and is reported exactly when `updated > 0`; whenever it is reported the
eligible count is nonzero (so the quotient is well defined), and when
`updated = 0` it is omitted even if the eligible count is nonzero. -/
theorem c4_success_rate_gate (available_textures : List String) (blocks : List Block) :
    ((run_stats available_textures blocks).updated = 0 →
      success_rate_report (run_stats available_textures blocks) = none) ∧
    (0 < (run_stats available_textures blocks).updated →
      0 < (run_stats available_textures blocks).missing_found ∧
      success_rate_report (run_stats available_textures blocks)
        = some (((run_stats available_textures blocks).updated : ℚ)
            / ((run_stats available_textures blocks).missing_found : ℚ) * 100)) := by
  constructor
  · intro h
    simp [success_rate_report, h]
  · intro h
    obtain ⟨h1, h2, h3⟩ := run_stats_fold available_textures blocks ⟨0, 0, 0, 0⟩
    constructor
    · unfold run_stats at h ⊢
      simp at h3
      omega
    · simp [success_rate_report, h]

theorem c4_success_rate_gate_witness :
    0 < (run_stats ["stone.png"] [⟨"stone", "blocks/missing_texture.png", []⟩]).updated ∧
    (0 < (run_stats ["stone.png"] [⟨"stone", "blocks/missing_texture.png", []⟩]).missing_found ∧
      success_rate_report (run_stats ["stone.png"] [⟨"stone", "blocks/missing_texture.png", []⟩])
        = some (((run_stats ["stone.png"]
              [⟨"stone", "blocks/missing_texture.png", []⟩]).updated : ℚ)
            / ((run_stats ["stone.png"]
              [⟨"stone", "blocks/missing_texture.png", []⟩]).missing_found : ℚ) * 100)) :=
  ⟨by decide,
   (c4_success_rate_gate ["stone.png"] [⟨"stone", "blocks/missing_texture.png", []⟩]).2
     (by decide)⟩

/-- C8: when loading either input fails (file not found, malformed JSON, or
any other error), the process writes nothing and the persisted collection
is unchanged; the output is written only when both loads succeed, and then
it is exactly the result of the full in-memory pass. -/
theorem c8_no_write_on_error (tex : Except LoadError (List String))
    (blocks : Except LoadError (List Block)) :
    ((∃ e, tex = Except.error e) ∨ (∃ e, blocks = Except.error e) →
        run_process tex blocks = none) ∧
    (∀ out, run_process tex blocks = some out →
        ∃ available_textures bs, tex = Except.ok available_textures ∧
          blocks = Except.ok bs ∧ out = update_blocks available_textures bs) := by
  constructor
  · rintro (⟨e, rfl⟩ | ⟨e, rfl⟩)
    · rfl
    · cases tex <;> rfl
  · intro out h
    cases tex with
    | error e => simp [run_process] at h
    | ok avail =>
      cases blocks with
      | error e => simp [run_process] at h
      | ok bs =>
        simp [run_process] at h
        exact ⟨avail, bs, rfl, rfl, h.symm⟩

theorem c8_no_write_on_error_witness :
    run_process (Except.error LoadError.fileNotFound) (Except.ok ([] : List Block)) = none :=
  (c8_no_write_on_error (Except.error LoadError.fileNotFound)
      (Except.ok ([] : List Block))).1
    (Or.inl ⟨LoadError.fileNotFound, rfl⟩)
